import Mathlib

/-!
Verification of the libcamera device-enumeration and shared-manager contracts.

Shallow embedding of:
* the `DeviceMatch` / `DeviceEnumerator` registry contract
  (`include/libcamera/internal/device_enumerator.h`; the implementation
  file is not part of the source tree, so the operational definitions are
  modelled from the specification and marked as such),
* the GStreamer camera-manager singleton
  (`src/gstreamer/gstlibcamera-utils.cpp`, `gst_libcamera_get_camera_manager`),
* the colorimetry-to-colorspace conversion
  (`src/gstreamer/gstlibcamera-utils.cpp`, `colorspace_from_colorimetry`).
-/

namespace Libcamera

/-! ## Media devices and match rules -/

/-- A media device: identity is the device-node path, plus the driver name
and the names of the entities of its media graph
(spec §3: "identity = device node path (string), plus driver name and an
entity graph (named sub-nodes ...)"). -/
structure MediaDevice where
  deviceNode : String
  driver : String
  entities : List String
  deriving DecidableEq, Repr

/-- The `DeviceMatch` rule: required driver name plus required entity names,
mirroring the fields `driver_` and `entities_` of
`include/libcamera/internal/device_enumerator.h`. -/
structure DeviceMatch where
  driver_ : String
  entities_ : List String
  deriving DecidableEq, Repr

/-- The constructor `DeviceMatch(const std::string &driver)`: only the
driver is set, the entity list starts empty. -/
def DeviceMatch.create (driver : String) : DeviceMatch :=
  { driver_ := driver, entities_ := [] }

/-- The method `DeviceMatch::add(entity)`: appends one required entity name. -/
def DeviceMatch.add (dm : DeviceMatch) (entity : String) : DeviceMatch :=
  { dm with entities_ := dm.entities_ ++ [entity] }

/-- Modelled from the spec: `DeviceMatch::match` (its defining .cpp file is
not in the tree; spec §4.1: "true iff `device.driver == requiredDriver`
AND every name in the required-entity set is present, by exact string
equality, among `device.entities`"). -/
def DeviceMatch.matches (dm : DeviceMatch) (device : MediaDevice) : Bool :=
  dm.driver_ == device.driver &&
    dm.entities_.all (fun name => device.entities.contains name)

/-! ## The device registry / enumerator -/

/-- One add-notification event: `deviceAdded` is a zero-argument signal, so
an event is recorded together with the registry contents visible to a
subscriber at emission time (the device inserted last is part of that
snapshot). -/
structure AddEvent where
  dev : MediaDevice
  snapshot : List MediaDevice
  deriving DecidableEq, Repr

/-- Enumerator state: the registry `devices_` in insertion order
(`std::vector<std::shared_ptr<MediaDevice>> devices_` in the header) and
the list of add-notifications emitted so far, oldest first. -/
structure Enumerator where
  devices_ : List MediaDevice
  log : List AddEvent
  deriving DecidableEq, Repr

/-- The freshly constructed enumerator: empty registry, nothing emitted. -/
def Enumerator.empty : Enumerator :=
  { devices_ := [], log := [] }

/-- Modelled from the spec: `DeviceEnumerator::search` (its defining .cpp
file is not in the tree; spec §4.2: "scans the registry once in insertion
order, returns the first device for which `dm.match` holds; returns 'not
found' ... if none match"). -/
def Enumerator.search (e : Enumerator) (dm : DeviceMatch) : Option MediaDevice :=
  e.devices_.find? (fun d => dm.matches d)

/-- Does some registered device have this node? -/
def hasNode (devs : List MediaDevice) (node : String) : Bool :=
  devs.any (fun d => d.deviceNode == node)

/-- Modelled from the spec: `DeviceEnumerator::addDevice` (its defining
.cpp file is not in the tree; spec §4.2: "inserts into the registry
(implementation must reject ... on duplicate node identity ...), then
synchronously emits the add-notification"; §7: an add for an
already-registered node is absorbed silently). -/
def Enumerator.addDevice (e : Enumerator) (media : MediaDevice) : Enumerator :=
  if hasNode e.devices_ media.deviceNode then
    e
  else
    let devs := e.devices_ ++ [media]
    { devices_ := devs, log := e.log ++ [{ dev := media, snapshot := devs }] }

/-- Erase the first (under the registry invariant: the only) entry with the
given device node; leave the list unchanged when none has it. -/
def eraseNode : List MediaDevice → String → List MediaDevice
  | [], _ => []
  | d :: rest, node =>
      if d.deviceNode == node then rest else d :: eraseNode rest node

/-- Modelled from the spec: `DeviceEnumerator::removeDevice` (its defining
.cpp file is not in the tree; spec §4.2: "erases the registry entry for
`node` if present; a no-op, not an error, if the node is unknown"; no
remove-notification exists in this contract). -/
def Enumerator.removeDevice (e : Enumerator) (node : String) : Enumerator :=
  { e with devices_ := eraseNode e.devices_ node }

/-- Run a sequence of `addDevice` calls, in order. -/
def Enumerator.runAdds (e : Enumerator) : List MediaDevice → Enumerator
  | [] => e
  | d :: rest => (e.addDevice d).runAdds rest

/-- The devices a call sequence actually inserts (duplicates by node being
absorbed), in call order, given the nodes already registered. -/
def acceptedFrom (devs : List MediaDevice) : List MediaDevice → List MediaDevice
  | [] => []
  | d :: rest =>
      if hasNode devs d.deviceNode then
        acceptedFrom devs rest
      else
        d :: acceptedFrom (devs ++ [d]) rest

/-! ## Shared ownership of media devices

The registry holds `std::shared_ptr<MediaDevice>` handles and consumers
claim further shared handles via `search`, so object lifetime is governed
by the strong-reference count, not by registry membership (spec §3 and
§5).  Objects live in a heap keyed by control-block id; an object stays in
the heap exactly while some strong reference — registry membership or a
consumer handle — exists. -/

structure SharedStore where
  heap : List (Nat × MediaDevice)
  registry : List Nat
  consumers : List Nat
  deriving DecidableEq, Repr

/-- Read a live object through a shared handle. -/
def lookupDev (heap : List (Nat × MediaDevice)) (i : Nat) : Option MediaDevice :=
  (heap.find? (fun p => p.1 == i)).map (fun p => p.2)

/-- The device node of the object a handle refers to. -/
def nodeAt (s : SharedStore) (i : Nat) : Option String :=
  (lookupDev s.heap i).map (fun d => d.deviceNode)

/-- Modelled from the spec: `search` under shared ownership (scan the
registry in insertion order, return the first handle whose device the rule
matches). -/
def SharedStore.searchS (s : SharedStore) (dm : DeviceMatch) : Option Nat :=
  s.registry.find? (fun i =>
    match lookupDev s.heap i with
    | some d => dm.matches d
    | none => false)

/-- A consumer claims the device found by `search`, taking one more strong
reference to it. -/
def SharedStore.acquire (s : SharedStore) (dm : DeviceMatch) : SharedStore :=
  match s.searchS dm with
  | some i => { s with consumers := i :: s.consumers }
  | none => s

/-- Modelled from the spec: `removeDevice(node)` under shared ownership —
drop the registry entry (one strong reference); the object is destroyed
only if no consumer still holds it (spec §3: "Eviction does not destroy
the object while external holders exist"). -/
def SharedStore.removeDeviceS (s : SharedStore) (node : String) : SharedStore :=
  match s.registry.find? (fun i => nodeAt s i == some node) with
  | none => s
  | some i =>
      if i ∈ s.consumers then
        { s with registry := s.registry.erase i }
      else
        { s with registry := s.registry.erase i,
                 heap := s.heap.filter (fun p => p.1 != i) }

/-- Registry well-formedness (spec §3: "no two live entries share a
device-node identity"): no duplicate handles, every registered handle is
live, and registered device nodes are pairwise distinct. -/
def SharedStore.wf (s : SharedStore) : Bool :=
  decide s.registry.Nodup &&
    s.registry.all (fun i => (nodeAt s i).isSome) &&
    decide (s.registry.map (fun i => nodeAt s i)).Nodup

/-! ## Shared camera-manager singleton (`gst_libcamera_get_camera_manager`)

The whole body of the function runs inside `G_LOCK(cm_singleton_lock)` /
`G_UNLOCK(cm_singleton_lock)`, so concurrent calls serialize and each call
is one atomic step on the shared state.  Instances are identified by the
order of their construction (`nextId`); `weakSlot` is `cm_singleton_ptr`
(a `std::weak_ptr`, locking successfully exactly while some strong holder
of its target is alive); `holders` is the multiset of live strong
references; `started` records every invocation of `CameraManager::start`,
in order.  `start`'s return value is an environment parameter
`startRes : Nat → Int` (0 = success). -/

structure CMState where
  nextId : Nat
  weakSlot : Option Nat
  holders : List Nat
  started : List Nat
  deriving DecidableEq, Repr

/-- Process start: no instance ever constructed, `cm_singleton_ptr` empty. -/
def CMState.empty : CMState :=
  { nextId := 0, weakSlot := none, holders := [], started := [] }

/-- Can `cm_singleton_ptr.lock()` succeed: the slot points to an instance
that still has a strong holder. -/
def CMState.weakLive (s : CMState) : Option Nat :=
  match s.weakSlot with
  | some i => if i ∈ s.holders then some i else none
  | none => none

/-- Result of one `gst_libcamera_get_camera_manager(ret)` call: the
returned shared handle (instance id), the value stored into `ret`, and the
post-state. -/
structure GetResult where
  handle : Nat
  ret : Int
  state : CMState
  deriving DecidableEq, Repr

/-- The function `gst_libcamera_get_camera_manager`, one atomic locked step:
`cm = cm_singleton_ptr.lock(); if (!cm) { cm = make_shared; cm_singleton_ptr = cm;
ret = cm->start(); } else { ret = 0; } return cm;`. -/
def getCameraManager (startRes : Nat → Int) (s : CMState) : GetResult :=
  match s.weakLive with
  | some i =>
      { handle := i, ret := 0, state := { s with holders := i :: s.holders } }
  | none =>
      let i := s.nextId
      { handle := i
        ret := startRes i
        state := { nextId := i + 1, weakSlot := some i,
                   holders := i :: s.holders, started := s.started ++ [i] } }

/-- A caller drops one strong reference (its `shared_ptr` goes away). -/
def CMState.release (s : CMState) (i : Nat) : CMState :=
  { s with holders := s.holders.erase i }

/-- The state after the construct-publish-start branch of
`gst_libcamera_get_camera_manager` (the `if (!cm)` body). -/
def CMState.construct (s : CMState) : CMState :=
  { nextId := s.nextId + 1, weakSlot := some s.nextId,
    holders := s.nextId :: s.holders, started := s.started ++ [s.nextId] }

/-- Environment actions on the singleton state. -/
inductive CMOp where
  | get
  | release (i : Nat)
  deriving DecidableEq, Repr

/-- One environment step. -/
def CMState.step (startRes : Nat → Int) (s : CMState) : CMOp → CMState
  | CMOp.get => (getCameraManager startRes s).state
  | CMOp.release i => s.release i

/-- Run a sequence of calls/releases from a state. -/
def CMState.run (startRes : Nat → Int) (s : CMState) : List CMOp → CMState
  | [] => s
  | op :: rest => (s.step startRes op).run startRes rest

/-- State invariant: every live strong holder holds the instance the weak
slot points to, and that instance id has already been allocated. -/
def CMState.inv (s : CMState) : Bool :=
  match s.weakSlot with
  | none => s.holders.isEmpty
  | some t => s.holders.all (fun i => i == t) && decide (t < s.nextId)

/-! ## Colorimetry conversion (`colorspace_from_colorimetry`)

Faithful embedding of the function from `src/gstreamer/gstlibcamera-utils.cpp`.
The local variable `std::optional<ColorSpace> colorspace;` is
default-constructed *empty*; `colorspace->field = v` dereferences the
optional, which is undefined behaviour while it is empty, so member
assignment is modelled as a fallible operation. -/

inductive Primaries where
  | raw | smpte170m | rec709 | rec2020
  deriving DecidableEq, Repr

inductive YcbcrEncoding where
  | noEnc | rec601 | rec709 | rec2020
  deriving DecidableEq, Repr

inductive TransferFunction where
  | linear | srgb | rec709
  deriving DecidableEq, Repr

inductive Range where
  | full | limited
  deriving DecidableEq, Repr

structure ColorSpace where
  primaries : Primaries
  ycbcrEncoding : YcbcrEncoding
  transferFunction : TransferFunction
  range : Range
  deriving DecidableEq, Repr

/-- The constant `ColorSpace::Raw` as defined in `include/libcamera/color_space.h`. -/
def ColorSpace.Raw : ColorSpace :=
  { primaries := Primaries.raw, ycbcrEncoding := YcbcrEncoding.rec601,
    transferFunction := TransferFunction.linear, range := Range.full }

/-- The GStreamer colour primaries the switch distinguishes; `other`
stands for every value falling into its `default:` label. -/
inductive GstPrimaries where
  | unknown | smpte170m | bt709 | bt2020 | other
  deriving DecidableEq, Repr

inductive GstTransfer where
  | gamma10 | gamma18 | gamma20 | gamma22 | gamma28
  | srgb | bt601 | bt709 | bt2020_10 | bt2020_12 | other
  deriving DecidableEq, Repr

inductive GstMatrix where
  | rgb | fcc | bt601 | bt709 | bt2020 | other
  deriving DecidableEq, Repr

inductive GstRange where
  | range_0_255 | range_16_235 | other
  deriving DecidableEq, Repr

structure GstVideoColorimetry where
  primaries : GstPrimaries
  transfer : GstTransfer
  matrix : GstMatrix
  range : GstRange
  deriving DecidableEq, Repr

/-- Undefined behaviour observed while evaluating the function. -/
inductive UB where
  | emptyOptionalDeref
  deriving DecidableEq, Repr

/-- Evaluating `colorspace->…` dereferences the `std::optional`, undefined when it
holds no value. -/
def optionalDeref (o : Option ColorSpace) : Except UB ColorSpace :=
  match o with
  | none => Except.error UB.emptyOptionalDeref
  | some cs => Except.ok cs

/-- The assignment `colorspace->primaries = p`. -/
def assignPrimaries (o : Option ColorSpace) (p : Primaries) :
    Except UB (Option ColorSpace) :=
  (optionalDeref o).map (fun cs => some { cs with primaries := p })

/-- The assignment `colorspace->transferFunction = t`. -/
def assignTransfer (o : Option ColorSpace) (t : TransferFunction) :
    Except UB (Option ColorSpace) :=
  (optionalDeref o).map (fun cs => some { cs with transferFunction := t })

/-- The assignment `colorspace->ycbcrEncoding = m`. -/
def assignMatrix (o : Option ColorSpace) (m : YcbcrEncoding) :
    Except UB (Option ColorSpace) :=
  (optionalDeref o).map (fun cs => some { cs with ycbcrEncoding := m })

/-- The assignment `colorspace->range = r`. -/
def assignRange (o : Option ColorSpace) (r : Range) :
    Except UB (Option ColorSpace) :=
  (optionalDeref o).map (fun cs => some { cs with range := r })

/-- Outcome of one `switch` block: either the function returned, or control
falls through with the current value of the local optional. -/
inductive Flow where
  | ret (v : Option ColorSpace)
  | cont (o : Option ColorSpace)
  deriving DecidableEq, Repr

/-- The `switch (colorimetry.primaries)` block. -/
def stagePrimaries (c : GstVideoColorimetry) (o : Option ColorSpace) :
    Except UB Flow :=
  match c.primaries with
  | GstPrimaries.unknown => Except.ok (Flow.ret (some ColorSpace.Raw))
  | GstPrimaries.smpte170m => (assignPrimaries o Primaries.smpte170m).map Flow.cont
  | GstPrimaries.bt709 => (assignPrimaries o Primaries.rec709).map Flow.cont
  | GstPrimaries.bt2020 => (assignPrimaries o Primaries.rec2020).map Flow.cont
  | GstPrimaries.other => Except.ok (Flow.ret none)

/-- The `switch (colorimetry.transfer)` block (the GAMMA 18/20/22/28 cases
fall through into GAMMA10). -/
def stageTransfer (c : GstVideoColorimetry) (o : Option ColorSpace) :
    Except UB Flow :=
  match c.transfer with
  | GstTransfer.gamma18 => (assignTransfer o TransferFunction.linear).map Flow.cont
  | GstTransfer.gamma20 => (assignTransfer o TransferFunction.linear).map Flow.cont
  | GstTransfer.gamma22 => (assignTransfer o TransferFunction.linear).map Flow.cont
  | GstTransfer.gamma28 => (assignTransfer o TransferFunction.linear).map Flow.cont
  | GstTransfer.gamma10 => (assignTransfer o TransferFunction.linear).map Flow.cont
  | GstTransfer.srgb => (assignTransfer o TransferFunction.srgb).map Flow.cont
  | GstTransfer.bt601 => (assignTransfer o TransferFunction.rec709).map Flow.cont
  | GstTransfer.bt2020_12 => (assignTransfer o TransferFunction.rec709).map Flow.cont
  | GstTransfer.bt2020_10 => (assignTransfer o TransferFunction.rec709).map Flow.cont
  | GstTransfer.bt709 => (assignTransfer o TransferFunction.rec709).map Flow.cont
  | GstTransfer.other => Except.ok (Flow.ret none)

/-- The `switch (colorimetry.matrix)` block. -/
def stageMatrix (c : GstVideoColorimetry) (o : Option ColorSpace) :
    Except UB Flow :=
  match c.matrix with
  | GstMatrix.rgb => (assignMatrix o YcbcrEncoding.noEnc).map Flow.cont
  | GstMatrix.fcc => (assignMatrix o YcbcrEncoding.rec601).map Flow.cont
  | GstMatrix.bt601 => (assignMatrix o YcbcrEncoding.rec601).map Flow.cont
  | GstMatrix.bt709 => (assignMatrix o YcbcrEncoding.rec709).map Flow.cont
  | GstMatrix.bt2020 => (assignMatrix o YcbcrEncoding.rec2020).map Flow.cont
  | GstMatrix.other => Except.ok (Flow.ret none)

/-- The `switch (colorimetry.range)` block. -/
def stageRange (c : GstVideoColorimetry) (o : Option ColorSpace) :
    Except UB Flow :=
  match c.range with
  | GstRange.range_0_255 => (assignRange o Range.full).map Flow.cont
  | GstRange.range_16_235 => (assignRange o Range.limited).map Flow.cont
  | GstRange.other => Except.ok (Flow.ret none)

/-- The function `colorspace_from_colorimetry`: the local optional starts empty, the
four switch blocks run in order, and the final `return colorspace`. -/
def colorspace_from_colorimetry (c : GstVideoColorimetry) :
    Except UB (Option ColorSpace) := do
  let colorspace : Option ColorSpace := none
  match ← stagePrimaries c colorspace with
  | Flow.ret v => return v
  | Flow.cont o1 =>
    match ← stageTransfer c o1 with
    | Flow.ret v => return v
    | Flow.cont o2 =>
      match ← stageMatrix c o2 with
      | Flow.ret v => return v
      | Flow.cont o3 =>
        match ← stageRange c o3 with
        | Flow.ret v => return v
        | Flow.cont o4 => return o4

/-! ## Concrete fixtures used to instantiate the theorems -/

def dUvc : MediaDevice :=
  { deviceNode := "/dev/media0", driver := "uvcvideo", entities := ["sensor-x"] }

def dFirst : MediaDevice :=
  { deviceNode := "/dev/media0", driver := "drv", entities := [] }

def dSecond : MediaDevice :=
  { deviceNode := "/dev/media1", driver := "drv", entities := [] }

def dmDrv : DeviceMatch := DeviceMatch.create "drv"

def dA : MediaDevice :=
  { deviceNode := "/dev/media0", driver := "drvA", entities := ["a"] }

def dB : MediaDevice :=
  { deviceNode := "/dev/media0", driver := "drvB", entities := ["b"] }

/-- A store holding one registered device, no consumer handles yet. -/
def storeX : SharedStore :=
  { heap := [(0, dFirst)], registry := [0], consumers := [] }

/-- A store holding two registered devices that both match `dmDrv`. -/
def storeXY : SharedStore :=
  { heap := [(0, dFirst), (1, dSecond)], registry := [0, 1], consumers := [] }

/-! ## Helper lemmas -/

/-- Folding `DeviceMatch::add` over a name list just accumulates the names. -/
theorem foldl_add_create (drv : String) (acc : List String) :
    ∀ E : List String,
      E.foldl DeviceMatch.add { driver_ := drv, entities_ := acc }
        = { driver_ := drv, entities_ := acc ++ E } := by
  intro E
  induction E generalizing acc with
  | nil => simp
  | cons e rest ih =>
      simp only [List.foldl_cons, DeviceMatch.add]
      rw [ih]
      simp

/-- List `find?` returns the head of the first matching suffix. -/
theorem find?_first {α : Type} (p : α → Bool) :
    ∀ (l1 : List α) (a : α) (l2 : List α),
      (∀ x ∈ l1, p x = false) → p a = true →
      (l1 ++ a :: l2).find? p = some a := by
  intro l1
  induction l1 with
  | nil =>
      intro a l2 _ ha
      simp [List.find?, ha]
  | cons x rest ih =>
      intro a l2 hl ha
      have hx : p x = false := hl x (List.mem_cons_self x rest)
      simp only [List.cons_append, List.find?, hx]
      exact ih a l2 (fun y hy => hl y (List.mem_cons_of_mem x hy)) ha

/-- List `find?` returns the unique element satisfying the predicate. -/
theorem find?_unique {α : Type} (p : α → Bool) :
    ∀ (l : List α) (a : α),
      a ∈ l → p a = true → (∀ b ∈ l, p b = true → b = a) →
      l.find? p = some a := by
  intro l
  induction l with
  | nil => intro a h; cases h
  | cons x rest ih =>
      intro a hmem ha huniq
      by_cases hx : p x = true
      · have hxa : x = a := huniq x (List.mem_cons_self x rest) hx
        subst hxa
        simp [List.find?, hx]
      · have hxf : p x = false := by
          cases hpx : p x with
          | true => exact absurd hpx hx
          | false => rfl
        have hmem2 : a ∈ rest := by
          cases hmem with
          | head => exact absurd ha (by simp [hxf])
          | tail _ h => exact h
        simp only [List.find?, hxf]
        exact ih a hmem2 ha (fun b hb => huniq b (List.mem_cons_of_mem x hb))

/-- Erasing an absent node is the identity on the registry list. -/
theorem eraseNode_of_absent :
    ∀ (l : List MediaDevice) (node : String),
      hasNode l node = false → eraseNode l node = l := by
  intro l
  induction l with
  | nil => intro node _; rfl
  | cons d rest ih =>
      intro node h
      simp only [hasNode, List.any_cons, Bool.or_eq_false_iff] at h
      simp [eraseNode, h.1, ih node (by simp [hasNode, h.2])]

/-! ## Claim theorems: the match rule and the registry -/

/-- Characterization of `DeviceMatch::match`: exact driver equality and exact
membership of every required entity name. -/
theorem matches_iff (dm : DeviceMatch) (D : MediaDevice) :
    dm.matches D = true ↔ D.driver = dm.driver_ ∧ ∀ e ∈ dm.entities_, e ∈ D.entities := by
  simp only [DeviceMatch.matches, Bool.and_eq_true, List.all_eq_true, beq_iff_eq]
  constructor
  · rintro ⟨h1, h2⟩
    exact ⟨h1.symm, fun e he => List.elem_iff.mp (h2 e he)⟩
  · rintro ⟨h1, h2⟩
    exact ⟨h1.symm, fun e he => List.elem_iff.mpr (h2 e he)⟩

/-- Claim C1: for every `DeviceMatch` built from driver `drv` and
required-entity list `E`, and every device `D`, `match` is true iff `D`'s
driver equals `drv` exactly and every required name occurs exactly among
`D`'s entities; an empty `E` matches any device of that driver; a required
name not present exactly forces false. -/
theorem deviceMatch_match_iff (drv : String) (E : List String) (D : MediaDevice) :
    ((E.foldl DeviceMatch.add (DeviceMatch.create drv)).matches D = true ↔
       D.driver = drv ∧ ∀ e ∈ E, e ∈ D.entities) ∧
    ((DeviceMatch.create drv).matches D = true ↔ D.driver = drv) ∧
    (∀ e ∈ E, e ∉ D.entities →
       (E.foldl DeviceMatch.add (DeviceMatch.create drv)).matches D = false) := by
  have hfold : E.foldl DeviceMatch.add (DeviceMatch.create drv)
      = { driver_ := drv, entities_ := E } := by
    simpa [DeviceMatch.create] using foldl_add_create drv [] E
  have hmain : ((E.foldl DeviceMatch.add (DeviceMatch.create drv)).matches D = true ↔
      D.driver = drv ∧ ∀ e ∈ E, e ∈ D.entities) := by
    rw [hfold, matches_iff]
  refine ⟨hmain, ?_, ?_⟩
  · rw [matches_iff]
    simp [DeviceMatch.create]
  · intro e he hne
    cases hm : (E.foldl DeviceMatch.add (DeviceMatch.create drv)).matches D with
    | false => rfl
    | true => exact absurd ((hmain.mp hm).2 e he) hne

/-- Claim C1, applied at a concrete rule and device. -/
theorem deviceMatch_match_iff_witness :
    ((["sensor"].foldl DeviceMatch.add (DeviceMatch.create "uvcvideo")).matches dUvc = true ↔
      dUvc.driver = "uvcvideo" ∧ ∀ e ∈ ["sensor"], e ∈ dUvc.entities) :=
  (deviceMatch_match_iff "uvcvideo" ["sensor"] dUvc).1

/-- Claim C2: `search` returns the first registered device the rule
matches, scanning in insertion order; "not found" exactly when no
registered device matches (so with two matching devices it returns the one
inserted first). -/
theorem search_first_match (e : Enumerator) (dm : DeviceMatch) :
    (e.search dm = none ↔ ∀ d ∈ e.devices_, dm.matches d = false) ∧
    (∀ d, e.search dm = some d → dm.matches d = true ∧ d ∈ e.devices_) ∧
    (∀ l1 a l2, e.devices_ = l1 ++ a :: l2 →
       (∀ x ∈ l1, dm.matches x = false) → dm.matches a = true →
       e.search dm = some a) := by
  refine ⟨?_, ?_, ?_⟩
  · unfold Enumerator.search
    rw [List.find?_eq_none]
    constructor
    · intro h d hd
      have := h d hd
      simpa using this
    · intro h d hd
      simp [h d hd]
  · intro d hd
    exact ⟨List.find?_some hd, List.mem_of_find?_eq_some hd⟩
  · intro l1 a l2 hsplit hl1 ha
    unfold Enumerator.search
    rw [hsplit]
    exact find?_first _ l1 a l2 hl1 ha

/-- Claim C2, applied at a registry holding two matching devices: the one
inserted first is returned. -/
theorem search_first_match_witness :
    Enumerator.search { devices_ := [dFirst, dSecond], log := [] } dmDrv = some dFirst :=
  (search_first_match { devices_ := [dFirst, dSecond], log := [] } dmDrv).2.2
    [] dFirst [dSecond] rfl (by intro x hx; cases hx) (by decide)

/-- Claim C8: removing an unknown node is a silent no-op: the enumerator
state (registry contents and notification log) is completely unchanged,
and no error is produced (the operation is total). -/
theorem removeDevice_absent_noop (e : Enumerator) (node : String) :
    hasNode e.devices_ node = false → e.removeDevice node = e := by
  intro h
  unfold Enumerator.removeDevice
  rw [eraseNode_of_absent e.devices_ node h]

/-- Claim C8, applied at a concrete registry and an absent node. -/
theorem removeDevice_absent_noop_witness :
    Enumerator.removeDevice { devices_ := [dFirst], log := [] } "/dev/media9"
      = { devices_ := [dFirst], log := [] } :=
  removeDevice_absent_noop { devices_ := [dFirst], log := [] } "/dev/media9" (by decide)

/-- Claim C4: add A at node n, remove n, add B at node n (starting from the
fresh enumerator): the registry ends holding exactly B (the very value
passed in, none of A's state merged in), and exactly two add-notifications
were emitted, for A then for B, in that order. -/
theorem rebind_two_transitions (A B : MediaDevice) (n : String)
    (hA : A.deviceNode = n) (hB : B.deviceNode = n) :
    (((Enumerator.empty.addDevice A).removeDevice n).addDevice B).devices_ = [B] ∧
    (((Enumerator.empty.addDevice A).removeDevice n).addDevice B).log
      = [{ dev := A, snapshot := [A] }, { dev := B, snapshot := [B] }] := by
  subst hA
  have h1 : Enumerator.empty.addDevice A
      = { devices_ := [A], log := [{ dev := A, snapshot := [A] }] } := by
    simp [Enumerator.empty, Enumerator.addDevice, hasNode]
  have h2 : ({ devices_ := [A], log := [{ dev := A, snapshot := [A] }] }
        : Enumerator).removeDevice A.deviceNode
      = { devices_ := [], log := [{ dev := A, snapshot := [A] }] } := by
    simp [Enumerator.removeDevice, eraseNode]
  rw [h1, h2]
  simp [Enumerator.addDevice, hasNode]

/-- Claim C4, applied at concrete devices A and B bound to the same node. -/
theorem rebind_two_transitions_witness :
    (((Enumerator.empty.addDevice dA).removeDevice "/dev/media0").addDevice dB).devices_
      = [dB] :=
  (rebind_two_transitions dA dB "/dev/media0" rfl rfl).1

/-- Claim C7: `addDevice` first inserts the device, then synchronously
emits the add-notification; the registry snapshot a subscriber sees at
emission already holds the new device, so a `search` run inside the
handler finds a match for any rule the new device satisfies; and across
any sequence of calls the emitted notifications correspond to the
`addDevice` calls in exactly program order. -/
theorem addDevice_insert_then_notify :
    (∀ (e : Enumerator) (d : MediaDevice), hasNode e.devices_ d.deviceNode = false →
        (e.addDevice d).devices_ = e.devices_ ++ [d] ∧
        (e.addDevice d).log = e.log ++ [{ dev := d, snapshot := e.devices_ ++ [d] }] ∧
        d ∈ (e.addDevice d).devices_ ∧
        (∀ dm : DeviceMatch, dm.matches d = true →
          ((e.addDevice d).search dm).isSome = true)) ∧
    (∀ (e : Enumerator) (l : List MediaDevice),
        ((e.runAdds l).log).map AddEvent.dev
          = e.log.map AddEvent.dev ++ acceptedFrom e.devices_ l) := by
  constructor
  · intro e d h
    have hadd : (e.addDevice d)
        = { devices_ := e.devices_ ++ [d],
            log := e.log ++ [{ dev := d, snapshot := e.devices_ ++ [d] }] } := by
      simp [Enumerator.addDevice, h]
    refine ⟨by rw [hadd], by rw [hadd], ?_, ?_⟩
    · rw [hadd]
      simp
    · intro dm hdm
      rw [hadd]
      unfold Enumerator.search
      cases hfind : (e.devices_ ++ [d]).find? (fun x => dm.matches x) with
      | some x => rfl
      | none =>
          rw [List.find?_eq_none] at hfind
          have hd : d ∈ e.devices_ ++ [d] := by simp
          exact absurd hdm (by simpa using hfind d hd)
  · intro e l
    induction l generalizing e with
    | nil => simp [Enumerator.runAdds, acceptedFrom]
    | cons d rest ih =>
        by_cases h : hasNode e.devices_ d.deviceNode = true
        · have hdup : e.addDevice d = e := by simp [Enumerator.addDevice, h]
          have hacc : acceptedFrom e.devices_ (d :: rest)
              = acceptedFrom e.devices_ rest := by
            simp [acceptedFrom, h]
          calc ((e.runAdds (d :: rest)).log).map AddEvent.dev
              = (((e.addDevice d).runAdds rest).log).map AddEvent.dev := rfl
            _ = ((e.runAdds rest).log).map AddEvent.dev := by rw [hdup]
            _ = e.log.map AddEvent.dev ++ acceptedFrom e.devices_ rest := ih e
            _ = e.log.map AddEvent.dev ++ acceptedFrom e.devices_ (d :: rest) := by
                  rw [hacc]
        · have hf : hasNode e.devices_ d.deviceNode = false := by
            cases hx : hasNode e.devices_ d.deviceNode with
            | true => exact absurd hx h
            | false => rfl
          have hadd : (e.addDevice d)
              = { devices_ := e.devices_ ++ [d],
                  log := e.log ++ [{ dev := d, snapshot := e.devices_ ++ [d] }] } := by
            simp [Enumerator.addDevice, hf]
          have hacc : acceptedFrom e.devices_ (d :: rest)
              = d :: acceptedFrom (e.devices_ ++ [d]) rest := by
            simp [acceptedFrom, hf]
          calc ((e.runAdds (d :: rest)).log).map AddEvent.dev
              = (((e.addDevice d).runAdds rest).log).map AddEvent.dev := rfl
            _ = ((e.addDevice d).log).map AddEvent.dev
                  ++ acceptedFrom (e.addDevice d).devices_ rest := ih (e.addDevice d)
            _ = e.log.map AddEvent.dev ++ acceptedFrom e.devices_ (d :: rest) := by
                  rw [hadd, hacc]
                  simp
/-- Claim C7, applied at the fresh enumerator and a concrete device. -/
theorem addDevice_insert_then_notify_witness :
    (Enumerator.empty.addDevice dA).devices_ = Enumerator.empty.devices_ ++ [dA] :=
  (addDevice_insert_then_notify.1 Enumerator.empty dA (by decide)).1

/-- Claim C3 as stated is too strong: in a registry holding a second
device that the rule also matches, removing `X`'s node leaves `search`
returning that other device, not "not found". -/
theorem removed_device_search_cex :
    dmDrv.matches dFirst = true ∧
    storeXY.searchS dmDrv = some 0 ∧
    lookupDev storeXY.heap 0 = some dFirst ∧
    dFirst.deviceNode = "/dev/media0" ∧
    ¬ (((storeXY.acquire dmDrv).removeDeviceS "/dev/media0").searchS dmDrv = none) := by
  refine ⟨rfl, rfl, rfl, rfl, ?_⟩
  intro h
  rw [show ((storeXY.acquire dmDrv).removeDeviceS "/dev/media0").searchS dmDrv
      = some 1 from rfl] at h
  cases h

/-- Claim C3 (amended): after `removeDevice(X.node)` the consumer's
previously obtained shared reference to `X` still reads the unchanged
object; `search` with the rule never returns `X` again, and returns "not
found" provided no other registered device matches the rule — removal
only removes future discoverability, never the object itself while
holders exist. -/
theorem removed_device_ref_valid (s : SharedStore) (dm : DeviceMatch)
    (i : Nat) (X : MediaDevice)
    (hwf : s.wf = true) (hs : s.searchS dm = some i)
    (hX : lookupDev s.heap i = some X) :
    lookupDev ((s.acquire dm).removeDeviceS X.deviceNode).heap i = some X ∧
    (∀ j, ((s.acquire dm).removeDeviceS X.deviceNode).searchS dm = some j → j ≠ i) ∧
    ((∀ j ∈ s.registry, j ≠ i → ∀ d, lookupDev s.heap j = some d →
        dm.matches d = false) →
      ((s.acquire dm).removeDeviceS X.deviceNode).searchS dm = none) := by
  have hacq : s.acquire dm = { s with consumers := i :: s.consumers } := by
    simp [SharedStore.acquire, hs]
  have hwf3 := hwf
  simp only [SharedStore.wf, Bool.and_eq_true, decide_eq_true_eq,
    List.all_eq_true] at hwf3
  obtain ⟨⟨hnd, _⟩, hinj⟩ := hwf3
  have hiReg : i ∈ s.registry := List.mem_of_find?_eq_some hs
  have hnodeAt : ∀ j, nodeAt { s with consumers := i :: s.consumers } j = nodeAt s j :=
    fun _ => rfl
  have hqi : (nodeAt s i == some X.deviceNode) = true := by
    simp [nodeAt, hX]
  have huniq : ∀ j ∈ s.registry,
      (nodeAt s j == some X.deviceNode) = true → j = i := by
    intro j hj hq
    have hqj : nodeAt s j = some X.deviceNode := beq_iff_eq.mp hq
    have hqi2 : nodeAt s i = some X.deviceNode := beq_iff_eq.mp hqi
    exact List.inj_on_of_nodup_map hinj hj hiReg (hqj.trans hqi2.symm)
  have hfind : s.registry.find? (fun j => nodeAt s j == some X.deviceNode) = some i :=
    find?_unique _ s.registry i hiReg hqi huniq
  have hrem : (s.acquire dm).removeDeviceS X.deviceNode
      = { s with consumers := i :: s.consumers, registry := s.registry.erase i } := by
    rw [hacq]
    unfold SharedStore.removeDeviceS
    simp only [hnodeAt]
    rw [hfind]
    simp
  rw [hrem]
  refine ⟨hX, ?_, ?_⟩
  · intro j hj
    have hjmem : j ∈ s.registry.erase i := List.mem_of_find?_eq_some hj
    exact ((List.Nodup.mem_erase_iff hnd).mp hjmem).1
  · intro honly
    unfold SharedStore.searchS
    rw [List.find?_eq_none]
    intro j hj
    have hj2 := (List.Nodup.mem_erase_iff hnd).mp hj
    cases hl : lookupDev s.heap j with
    | none => simp [hl]
    | some d => simp [hl, honly j hj2.2 hj2.1 d hl]

/-- Claim C3 (amended), applied at a store holding one matching device. -/
theorem removed_device_ref_valid_witness :
    lookupDev ((storeX.acquire dmDrv).removeDeviceS dFirst.deviceNode).heap 0
      = some dFirst :=
  (removed_device_ref_valid storeX dmDrv 0 dFirst (by decide) rfl rfl).1

/-! ## Singleton lemmas -/

/-- With no strong holder alive, `cm_singleton_ptr.lock()` fails. -/
theorem weakLive_none_of_no_holders (s : CMState) (h : s.holders = []) :
    s.weakLive = none := by
  unfold CMState.weakLive
  cases hw : s.weakSlot with
  | none => rfl
  | some i => simp [h]

/-- A failed lock means construct, publish, start. -/
theorem get_construct (startRes : Nat → Int) (s : CMState) (h : s.weakLive = none) :
    getCameraManager startRes s
      = { handle := s.nextId, ret := startRes s.nextId, state := s.construct } := by
  unfold getCameraManager CMState.construct
  rw [h]

/-- A freshly constructed instance is immediately lockable. -/
theorem construct_weakLive (s : CMState) : s.construct.weakLive = some s.nextId := by
  unfold CMState.construct CMState.weakLive
  simp

/-- A successful lock returns the existing instance with `ret = 0`. -/
theorem get_live (startRes : Nat → Int) (s : CMState) (i : Nat)
    (h : s.weakLive = some i) :
    getCameraManager startRes s
      = { handle := i, ret := 0, state := { s with holders := i :: s.holders } } := by
  unfold getCameraManager
  rw [h]

/-- If the lock fails under the invariant, no strong holder is alive. -/
theorem holders_nil_of_weakLive_none (s : CMState) (hinv : s.inv = true)
    (h : s.weakLive = none) : s.holders = [] := by
  unfold CMState.inv at hinv
  unfold CMState.weakLive at h
  cases hw : s.weakSlot with
  | none =>
      rw [hw] at hinv
      exact List.isEmpty_iff.mp hinv
  | some t =>
      rw [hw] at hinv h
      by_cases hm : t ∈ s.holders
      · simp [hm] at h
      · cases hh : s.holders with
        | nil => rfl
        | cons x rest =>
            rw [hh] at hinv
            simp only [Bool.and_eq_true, List.all_cons, beq_iff_eq] at hinv
            have hx : x = t := hinv.1.1
            have ht : t ∈ s.holders := by
              rw [hh, ← hx]
              exact List.mem_cons_self x rest
            exact absurd ht hm

/-- The singleton invariant is preserved by every step. -/
theorem inv_step (startRes : Nat → Int) (s : CMState) (op : CMOp)
    (h : s.inv = true) : (s.step startRes op).inv = true := by
  cases op with
  | get =>
      show (getCameraManager startRes s).state.inv = true
      cases hW : s.weakLive with
      | some i =>
          have hw : s.weakSlot = some i ∧ i ∈ s.holders := by
            cases hws : s.weakSlot with
            | none => simp [CMState.weakLive, hws] at hW
            | some t =>
                by_cases hm : t ∈ s.holders
                · have hti : t = i := by
                    simpa [CMState.weakLive, hws, hm] using hW
                  exact ⟨congrArg some hti, hti ▸ hm⟩
                · simp [CMState.weakLive, hws, hm] at hW
          rw [get_live startRes s i hW]
          unfold CMState.inv at h ⊢
          rw [hw.1] at h ⊢
          simp only [Bool.and_eq_true, List.all_cons, beq_self_eq_true, true_and] at h ⊢
          exact h
      | none =>
          have hnil : s.holders = [] := holders_nil_of_weakLive_none s h hW
          rw [get_construct startRes s hW]
          unfold CMState.inv CMState.construct
          simp [hnil]
  | release i =>
      show (s.release i).inv = true
      unfold CMState.inv at h ⊢
      unfold CMState.release
      cases hw : s.weakSlot with
      | none =>
          rw [hw] at h
          have : s.holders = [] := List.isEmpty_iff.mp h
          simp [this]
      | some t =>
          rw [hw] at h
          simp only [Bool.and_eq_true, List.all_eq_true] at h ⊢
          exact ⟨fun x hx => h.1 x (List.mem_of_mem_erase hx), h.2⟩

/-- The singleton invariant holds in every reachable state. -/
theorem inv_run (startRes : Nat → Int) :
    ∀ (ops : List CMOp) (s : CMState), s.inv = true →
      (s.run startRes ops).inv = true := by
  intro ops
  induction ops with
  | nil => intro s h; exact h
  | cons op rest ih =>
      intro s h
      exact ih (s.step startRes op) (inv_step startRes s op h)

/-- Under the invariant all strong holders hold the same instance. -/
theorem inv_holders_eq (s : CMState) (h : s.inv = true) :
    ∀ i ∈ s.holders, ∀ j ∈ s.holders, i = j := by
  unfold CMState.inv at h
  cases hw : s.weakSlot with
  | none =>
      rw [hw] at h
      intro i hi
      rw [List.isEmpty_iff.mp h] at hi
      cases hi
  | some t =>
      rw [hw] at h
      simp only [Bool.and_eq_true, List.all_eq_true, beq_iff_eq] at h
      intro i hi j hj
      rw [h.1 i hi, h.1 j hj]

/-! ## Claim theorems: the camera-manager singleton -/

/-- Claim C5: the whole body of `gst_libcamera_get_camera_manager` runs
under `cm_singleton_lock`, so concurrent calls serialize; (a) two requests
arriving when no strong holder exists construct exactly one instance
(one allocation, one `start`) and both receive identical handles, the
second with `ret = 0`; (b) in every reachable state all live strong
handles refer to one single instance; (c) once all strong handles are
gone, the next request constructs a distinct new instance with its own
`start` call. -/
theorem cameraManager_singleton (startRes : Nat → Int) :
    (∀ s : CMState, s.holders = [] →
        (getCameraManager startRes (getCameraManager startRes s).state).handle
            = (getCameraManager startRes s).handle ∧
        (getCameraManager startRes (getCameraManager startRes s).state).ret = 0 ∧
        (getCameraManager startRes (getCameraManager startRes s).state).state.nextId
            = s.nextId + 1 ∧
        (getCameraManager startRes (getCameraManager startRes s).state).state.started
            = s.started ++ [(getCameraManager startRes s).handle]) ∧
    (∀ ops : List CMOp, ∀ i ∈ (CMState.empty.run startRes ops).holders,
        ∀ j ∈ (CMState.empty.run startRes ops).holders, i = j) ∧
    (∀ (s : CMState) (i : Nat), s.inv = true → s.holders = [] →
        s.weakSlot = some i →
        (getCameraManager startRes s).handle ≠ i ∧
        (getCameraManager startRes s).state.started
            = s.started ++ [(getCameraManager startRes s).handle]) := by
  refine ⟨?_, ?_, ?_⟩
  · intro s hs
    have h1 : s.weakLive = none := weakLive_none_of_no_holders s hs
    rw [get_construct startRes s h1]
    rw [get_live startRes s.construct s.nextId (construct_weakLive s)]
    exact ⟨rfl, rfl, rfl, rfl⟩
  · intro ops
    exact inv_holders_eq (CMState.empty.run startRes ops)
      (inv_run startRes ops CMState.empty rfl)
  · intro s i hinv hs hw
    have h1 : s.weakLive = none := weakLive_none_of_no_holders s hs
    rw [get_construct startRes s h1]
    refine ⟨?_, rfl⟩
    unfold CMState.inv at hinv
    rw [hw] at hinv
    simp only [Bool.and_eq_true, decide_eq_true_eq] at hinv
    exact fun he => absurd (he ▸ hinv.2) (lt_irrefl i)

/-- Claim C5, applied at the fresh process state and at a stale-slot
state. -/
theorem cameraManager_singleton_witness :
    ((getCameraManager (fun _ => 0)
        (getCameraManager (fun _ => 0) CMState.empty).state).handle
      = (getCameraManager (fun _ => 0) CMState.empty).handle) ∧
    (getCameraManager (fun _ => 0)
        { nextId := 1, weakSlot := some 0, holders := [], started := [0] }).handle ≠ 0 :=
  ⟨((cameraManager_singleton (fun _ => 0)).1 CMState.empty rfl).1,
   ((cameraManager_singleton (fun _ => 0)).2.2
      { nextId := 1, weakSlot := some 0, holders := [], started := [0] } 0
      (by decide) rfl rfl).1⟩

/-- Claim C9: a call that finds the published weak handle still live
returns that existing instance, reports `ret = 0`, and does not invoke
`start` again — regardless of what the instance's original `start`
returned. -/
theorem get_existing_instance (startRes : Nat → Int) (s : CMState) (i : Nat)
    (hw : s.weakSlot = some i) (hh : i ∈ s.holders) :
    (getCameraManager startRes s).handle = i ∧
    (getCameraManager startRes s).ret = 0 ∧
    (getCameraManager startRes s).state.started = s.started ∧
    (getCameraManager startRes s).state.nextId = s.nextId := by
  have hlive : s.weakLive = some i := by
    unfold CMState.weakLive
    rw [hw]
    simp [hh]
  rw [get_live startRes s i hlive]
  exact ⟨rfl, rfl, rfl, rfl⟩

/-- Claim C9, applied at a state whose only instance failed to start
(`startRes` would report -5): the existing handle is returned with
`ret = 0` and no new `start` happens. -/
theorem get_existing_instance_witness :
    (getCameraManager (fun _ => -5)
        { nextId := 1, weakSlot := some 0, holders := [0], started := [0] }).handle = 0 ∧
    (getCameraManager (fun _ => -5)
        { nextId := 1, weakSlot := some 0, holders := [0], started := [0] }).ret = 0 :=
  ⟨(get_existing_instance (fun _ => -5)
      { nextId := 1, weakSlot := some 0, holders := [0], started := [0] } 0
      rfl (by decide)).1,
   (get_existing_instance (fun _ => -5)
      { nextId := 1, weakSlot := some 0, holders := [0], started := [0] } 0
      rfl (by decide)).2.1⟩

/-- Claim C6 fails on the code: when `start` fails on first-time
construction, the handle is *not* discarded before the lock is released —
the instance stays published in `cm_singleton_ptr` and is returned to the
caller, and a second request made while that handle is alive receives the
very instance whose start failed, with `ret = 0`. -/
theorem failed_start_published_cex :
    (getCameraManager (fun _ => -19) CMState.empty).ret ≠ 0 ∧
    (getCameraManager (fun _ => -19) CMState.empty).state.weakSlot
        = some (getCameraManager (fun _ => -19) CMState.empty).handle ∧
    (getCameraManager (fun _ => -19)
        (getCameraManager (fun _ => -19) CMState.empty).state).handle
        = (getCameraManager (fun _ => -19) CMState.empty).handle ∧
    (getCameraManager (fun _ => -19)
        (getCameraManager (fun _ => -19) CMState.empty).state).ret = 0 := by
  refine ⟨?_, rfl, rfl, rfl⟩
  intro h
  cases h

/-- Claim C6 (amended): on a first-time construction whose start fails,
the function still publishes the instance and returns it with the failure
code; only the caller can discard it, and while any copy of that handle is
alive a later request receives the failed instance with `ret = 0`.  After
the caller drops the failed handle, the next request constructs afresh. -/
theorem failed_start_published (startRes : Nat → Int) (s : CMState)
    (h0 : s.holders = []) (hf : startRes s.nextId ≠ 0) :
    (getCameraManager startRes s).ret ≠ 0 ∧
    (getCameraManager startRes s).state.weakSlot
        = some (getCameraManager startRes s).handle ∧
    (getCameraManager startRes s).handle ∈ (getCameraManager startRes s).state.holders ∧
    (getCameraManager startRes
        (getCameraManager startRes s).state).handle
        = (getCameraManager startRes s).handle ∧
    (getCameraManager startRes (getCameraManager startRes s).state).ret = 0 ∧
    (getCameraManager startRes
        ((getCameraManager startRes s).state.release
          (getCameraManager startRes s).handle)).handle
        ≠ (getCameraManager startRes s).handle := by
  have h1 : s.weakLive = none := weakLive_none_of_no_holders s h0
  rw [get_construct startRes s h1]
  rw [get_live startRes s.construct s.nextId (construct_weakLive s)]
  have h3 : s.construct.release s.nextId = ⟨s.nextId + 1, some s.nextId, [],
      s.started ++ [s.nextId]⟩ := by
    unfold CMState.construct CMState.release
    simp [h0]
  rw [h3]
  have h4 : (⟨s.nextId + 1, some s.nextId, [], s.started ++ [s.nextId]⟩
      : CMState).weakLive = none :=
    weakLive_none_of_no_holders _ rfl
  rw [get_construct startRes _ h4]
  refine ⟨hf, rfl, ?_, rfl, rfl, by simp⟩
  unfold CMState.construct
  exact List.mem_cons_self _ _

/-- Claim C6 (amended), applied at the fresh process state with a start
that fails with -19. -/
theorem failed_start_published_witness :
    (getCameraManager (fun _ => -19) CMState.empty).ret ≠ 0 ∧
    (getCameraManager (fun _ => -19)
        (getCameraManager (fun _ => -19) CMState.empty).state).ret = 0 :=
  ⟨(failed_start_published (fun _ => -19) CMState.empty rfl (by decide)).1,
   (failed_start_published (fun _ => -19) CMState.empty rfl (by decide)).2.2.2.2.1⟩

/-! ## Claim theorems: colorimetry conversion -/

/-- Claim C10 is the code's evident intent but the code violates it: the
local `std::optional<ColorSpace>` is default-constructed empty and the
very first member assignment (`colorspace->primaries = …`) dereferences
it, so for *every* colorimetry whose primaries are SMPTE170M, BT709 or
BT2020 — exactly the inputs the claim says are safe — evaluation hits the
empty-optional dereference; only the early-return branches (unknown or
unmapped primaries) avoid it. -/
theorem colorspace_empty_optional_deref (t : GstTransfer) (m : GstMatrix) (r : GstRange) :
    colorspace_from_colorimetry
        { primaries := GstPrimaries.smpte170m, transfer := t, matrix := m, range := r }
      = Except.error UB.emptyOptionalDeref ∧
    colorspace_from_colorimetry
        { primaries := GstPrimaries.bt709, transfer := t, matrix := m, range := r }
      = Except.error UB.emptyOptionalDeref ∧
    colorspace_from_colorimetry
        { primaries := GstPrimaries.bt2020, transfer := t, matrix := m, range := r }
      = Except.error UB.emptyOptionalDeref ∧
    colorspace_from_colorimetry
        { primaries := GstPrimaries.unknown, transfer := t, matrix := m, range := r }
      = Except.ok (some ColorSpace.Raw) ∧
    colorspace_from_colorimetry
        { primaries := GstPrimaries.other, transfer := t, matrix := m, range := r }
      = Except.ok none :=
  ⟨rfl, rfl, rfl, rfl, rfl⟩

end Libcamera
